import Mathlib

/-!
Verification development for the smartestimator floor-plan geometry pipeline.

The definitions below are shallow embeddings of the Python sources
`src/vision/geometry_from_dims.py`, `src/vision/ocr_dims.py` and
`src/metrics_walls.py`.  Python floats are modelled as exact rationals on
the pixel side and as real numbers wherever a square root (math.hypot)
enters; `round(x, 3)` is modelled as rounding `1000 * x` to the nearest
integer (Python rounds exact halves to even, which never matters for the
values appearing here).
-/

/-! ### Character and string helpers for the regex models -/

/-- Straight single-quote character (feet mark). -/
def sqCh : Char := Char.ofNat 39

/-- Straight double-quote character (inch mark). -/
def dqCh : Char := Char.ofNat 34

/-- Word character in the sense of the regex metacharacter backslash-w
(ASCII letters, digits, underscore). -/
def isWordChar (c : Char) : Bool := c.isAlphanum || c = Char.ofNat 95

/-- Drop leading whitespace, the model of a greedy whitespace star.
The atoms following it in the patterns below never start with whitespace,
so maximal munch never needs to backtrack. -/
def skipWs (cs : List Char) : List Char := cs.dropWhile (fun c => c.isWhitespace)

/-- Model of Python str.strip: remove leading and trailing whitespace. -/
def stripChars (cs : List Char) : List Char :=
  ((cs.dropWhile (fun c => c.isWhitespace)).reverse.dropWhile
    (fun c => c.isWhitespace)).reverse

/-- Match a literal character sequence at the head of the input, returning
the remainder on success. -/
def dropLit : List Char → List Char → Option (List Char)
  | [], cs => some cs
  | _ :: _, [] => none
  | p :: ps, c :: cs => if c = p then dropLit ps cs else none

/-- Numeric value of a digit list, most significant first. -/
def digitsToNat (ds : List Char) : Nat :=
  ds.foldl (fun n c => 10 * n + (c.toNat - 48)) 0

/-- All ways the regex piece "digits with optional decimal fraction"
can match a prefix of the input, in backtracking order: longer digit runs
first, and for each, fraction-present (longest fraction first) before
fraction-absent.  Each candidate is the parsed value and the remainder. -/
def decCandidates (cs : List Char) : List (ℚ × List Char) :=
  let ds := cs.takeWhile (fun c => c.isDigit)
  let rest0 := cs.drop ds.length
  (List.range ds.length).flatMap (fun i =>
    let k := ds.length - i
    let iv : ℚ := (digitsToNat (ds.take k) : ℚ)
    let afterInt := ds.drop k ++ rest0
    match afterInt with
    | c :: r2 =>
      if c = Char.ofNat 46 then
        let fs := r2.takeWhile (fun c => c.isDigit)
        ((List.range fs.length).map (fun j =>
          let m := fs.length - j
          (iv + (digitsToNat (fs.take m) : ℚ) / ((10 : ℚ) ^ m),
            fs.drop m ++ r2.drop fs.length)))
        ++ [(iv, afterInt)]
      else [(iv, afterInt)]
    | [] => [(iv, afterInt)])

/-- Integer-only candidates, for the patterns that use bare digit groups
(no decimal point), longest match first. -/
def intCandidates (cs : List Char) : List (ℚ × List Char) :=
  let ds := cs.takeWhile (fun c => c.isDigit)
  let rest0 := cs.drop ds.length
  (List.range ds.length).map (fun i =>
    let k := ds.length - i
    ((digitsToNat (ds.take k) : ℚ), ds.drop k ++ rest0))

/-- Word-boundary test of the regex metacharacter backslash-b, placed
between a just-matched character `prev` and the remainder `r`. -/
def boundaryOk (prev : Char) (r : List Char) : Bool :=
  match r with
  | [] => isWordChar prev
  | c :: _ => isWordChar prev != isWordChar c

/-! ### Model of `_to_feet` from src/vision/geometry_from_dims.py -/

/-- The constant FT_PER_MM = 0.0032808399 from geometry_from_dims.py. -/
def ftPerMm : ℚ := 32808399 / 10000000000

/-- Normalize curly quote glyphs to straight ones, the model of the four
chained replace calls in `_to_feet`. -/
def normQuotes (c : Char) : Char :=
  if c = '’' then sqCh
  else if c = '”' then dqCh
  else if c = '″' then dqCh
  else if c = '“' then dqCh
  else c

/-- Remainders after the optional feet marker, in regex alternation order:
straight quote, then "ft", then "feet", then nothing. -/
def unit1Rems (cs : List Char) : List (List Char) :=
  ([dropLit [sqCh] cs, dropLit ['f', 't'] cs,
    dropLit ['f', 'e', 'e', 't'] cs].reduceOption) ++ [cs]

/-- Remainders after the optional inch marker inside the feet branch, in
regex alternation order: double quote, "in", "inches", "inch", nothing. -/
def unit2Rems (cs : List Char) : List (List Char) :=
  ([dropLit [dqCh] cs, dropLit ['i', 'n'] cs,
    dropLit ['i', 'n', 'c', 'h', 'e', 's'] cs,
    dropLit ['i', 'n', 'c', 'h'] cs].reduceOption) ++ [cs]

/-- The optional inches part of the feet branch of DIM_FT_RX: whitespace,
a decimal number, whitespace, an optional inch marker, then only
whitespace may remain (the final anchor). -/
def inchTry (r3 : List Char) : Option ℚ :=
  (decCandidates (skipWs r3)).findSome? (fun ic =>
    (unit2Rems (skipWs ic.2)).findSome? (fun r6 =>
      if (skipWs r6).isEmpty then some ic.1 else none))

/-- Feet branch of DIM_FT_RX: a decimal number, optional feet marker,
optional inches part, anchored at the end. -/
def altFt (cs : List Char) : Option ℚ :=
  (decCandidates cs).findSome? (fun fc =>
    (unit1Rems (skipWs fc.2)).findSome? (fun r3 =>
      match inchTry r3 with
      | some v => some (fc.1 + v / 12)
      | none => if (skipWs r3).isEmpty then some fc.1 else none))

/-- Inches-only branch of DIM_FT_RX: a decimal number followed by a
mandatory inch marker, a word boundary, then the end anchor. -/
def altIn (cs : List Char) : Option ℚ :=
  (decCandidates cs).findSome? (fun fc =>
    let r2 := skipWs fc.2
    ([(dqCh, dropLit [dqCh] r2), ('n', dropLit ['i', 'n'] r2),
      ('s', dropLit ['i', 'n', 'c', 'h', 'e', 's'] r2),
      ('h', dropLit ['i', 'n', 'c', 'h'] r2)]).findSome? (fun pc =>
      match pc.2 with
      | some r3 =>
        if boundaryOk pc.1 r3 && (skipWs r3).isEmpty then some (fc.1 / 12)
        else none
      | none => none))

/-- Millimetre branch of DIM_FT_RX: a decimal number followed by "mm",
a word boundary, then the end anchor. -/
def altMm (cs : List Char) : Option ℚ :=
  (decCandidates cs).findSome? (fun fc =>
    match dropLit ['m', 'm'] (skipWs fc.2) with
    | some r3 =>
      if boundaryOk 'm' r3 && (skipWs r3).isEmpty then
        some (fc.1 * ftPerMm)
      else none
    | none => none)

/-- Model of `_to_feet`: strip the token, normalize curly quotes, and try
the three alternatives of DIM_FT_RX in order.  The leading and trailing
whitespace stars of the anchored pattern are absorbed by the strip.
The feet branch returns ft + in over 12 (missing groups count as zero),
the inch branch in over 12, the millimetre branch value times FT_PER_MM. -/
def toFeet (s : String) : Option ℚ :=
  let cs := stripChars (s.data.map normQuotes)
  match altFt cs with
  | some v => some v
  | none =>
    match altIn cs with
    | some v => some (v)
    | none => altMm cs

/-! ### Model of `parse_dimension` from src/vision/ocr_dims.py -/

/-- Result of `parse_dimension`: a single length, a pair from a compound
token, or nothing. -/
inductive ParseDim where
  | single (v : ℚ)
  | pair (a b : ℚ)
  deriving DecidableEq

/-- First pattern of `parse_dimension`: digits, whitespace, a straight or
curly feet quote, whitespace, digits; an unanchored prefix match. -/
def pdFtIn (cs : List Char) : Option ℚ :=
  (intCandidates cs).findSome? (fun fc =>
    match skipWs fc.2 with
    | c :: r3 =>
      if c = sqCh || c = '’' then
        (intCandidates (skipWs r3)).findSome? (fun ic =>
          some (fc.1 + ic.1 / 12))
      else none
    | [] => none)

/-- Second pattern of `parse_dimension`: digits, whitespace, a feet quote,
then the end of the token. -/
def pdFtOnly (cs : List Char) : Option ℚ :=
  (intCandidates cs).findSome? (fun fc =>
    match skipWs fc.2 with
    | [c] => if c = sqCh || c = '’' then some fc.1 else none
    | _ => none)

/-- Third pattern of `parse_dimension`: digits, whitespace, the letter x,
whitespace, digits; an unanchored prefix match yielding a pair. -/
def pdCompound (cs : List Char) : Option (ℚ × ℚ) :=
  (intCandidates cs).findSome? (fun fc =>
    match skipWs fc.2 with
    | c :: r3 =>
      if c = 'x' || c = 'X' then
        (intCandidates (skipWs r3)).findSome? (fun ic =>
          some (fc.1, ic.1))
      else none
    | [] => none)

/-- Model of `parse_dimension`: strip, then try the three re.match
patterns in order. -/
def parseDimension (s : String) : Option ParseDim :=
  let cs := stripChars s.data
  match pdFtIn cs with
  | some v => some (ParseDim.single v)
  | none =>
    match pdFtOnly cs with
    | some v => some (ParseDim.single v)
    | none =>
      match pdCompound cs with
      | some p => some (ParseDim.pair p.1 p.2)
      | none => none

/-! ### Geometry primitives from src/vision/geometry_from_dims.py

Pixel coordinates stay exact rationals; anything downstream of the scale
factor or of a Euclidean distance lives in the reals. -/

/-- Cast a pixel point to the real plane. -/
def castPt (p : ℚ × ℚ) : ℝ × ℝ := ((p.1 : ℝ), (p.2 : ℝ))

/-- Model of `_dist` (math.hypot) on real points. -/
noncomputable def distR (p q : ℝ × ℝ) : ℝ :=
  Real.sqrt ((p.1 - q.1) ^ 2 + (p.2 - q.2) ^ 2)

/-- Model of `_dist` applied to pixel points. -/
noncomputable def pxDist (p q : ℚ × ℚ) : ℝ := distR (castPt p) (castPt q)

/-- Model of `_shoelace_area_and_perim`: absolute shoelace area and
closed-loop perimeter of a polygon; degenerate polygons with fewer than
three vertices give (0, 0).  The source loop pairs vertex i with vertex
(i+1) mod n, which is exactly zipping the list with its rotation by one. -/
noncomputable def shoelace (poly : List (ℝ × ℝ)) : ℝ × ℝ :=
  if poly.length < 3 then (0, 0)
  else
    let pairs := poly.zip (poly.rotate 1)
    (|(pairs.map (fun pq => pq.1.1 * pq.2.2 - pq.2.1 * pq.1.2)).sum| / 2,
      (pairs.map (fun pq => distR pq.1 pq.2)).sum)

/-- Model of `_scale_poly`: multiply every pixel coordinate by the scale. -/
noncomputable def scalePoly (polyPx : List (ℚ × ℚ)) (ftPerPx : ℝ) : List (ℝ × ℝ) :=
  polyPx.map (fun p => ((p.1 : ℝ) * ftPerPx, (p.2 : ℝ) * ftPerPx))

/-- Model of round(x, 3): round 1000 x to the nearest integer and divide
back.  Python rounds exact halves to even instead of away from zero; no
value in this development sits on such a tie. -/
noncomputable def round3 (x : ℝ) : ℝ := (round (x * 1000) : ℤ) / 1000

/-! ### Median, the model of statistics.median as used by the source -/

/-- Insert into a sorted list of reals, keeping it sorted. -/
noncomputable def insertR (x : ℝ) : List ℝ → List ℝ
  | [] => [x]
  | y :: ys => if x ≤ y then x :: y :: ys else y :: insertR x ys

/-- Ascending sort of a list of reals.  statistics.median sorts its data;
any two ascending-sorted lists with the same multiset of values agree, so
insertion sort models the library sort faithfully. -/
noncomputable def sortR : List ℝ → List ℝ
  | [] => []
  | x :: xs => insertR x (sortR xs)

/-- Model of statistics.median.  The source only ever calls it on
non-empty data (the library raises otherwise); on [] this model returns
the junk value 0, which no theorem relies on. -/
noncomputable def median (l : List ℝ) : ℝ :=
  if l.length % 2 = 1 then (sortR l).getD (l.length / 2) 0
  else ((sortR l).getD (l.length / 2 - 1) 0 + (sortR l).getD (l.length / 2) 0) / 2

/-! ### Scale estimation from OCR dimension tokens -/

/-- The value found under the "feet" key of a dims record: the upstream
writer stores either a number or a two-element list (from a compound
token such as 12x16). -/
inductive FeetField where
  | num (q : ℚ)
  | pairv (a b : ℚ)
  deriving DecidableEq

/-- One record of the dims list consumed by `build_metrics`: optional
pixel endpoints, an optional "feet" entry and an optional "text" entry. -/
structure DimToken where
  p1 : Option (ℚ × ℚ)
  p2 : Option (ℚ × ℚ)
  feet : Option FeetField
  text : Option String
  deriving DecidableEq

/-- The parsed length the source derives for a token: the "feet" entry
when it is a plain number, otherwise `_to_feet` of the "text" entry when
present. -/
def feetVal (d : DimToken) : Option ℚ :=
  match d.feet with
  | some (FeetField.num q) => some q
  | some (FeetField.pairv _ _) =>
    match d.text with
    | some t => toFeet t
    | none => none
  | none =>
    match d.text with
    | some t => toFeet t
    | none => none

/-- The candidate ratio one token contributes inside
`_estimate_scale_from_dims`: requires both endpoints, pixel distance
above the noise cutoff 3, and a truthy positive parsed length. -/
noncomputable def candidateOfToken (d : DimToken) : Option ℝ :=
  match d.p1, d.p2 with
  | some p1, some p2 =>
    let pix := pxDist p1 p2
    if pix ≤ 3 then none
    else
      match feetVal d with
      | some v => if 0 < v then some ((v : ℝ) / pix) else none
      | none => none
  | _, _ => none

/-- Model of `_estimate_scale_from_dims`: collect candidate ratios and
return their median, or nothing when no candidate survives. -/
noncomputable def estimateScaleFromDims (dims : List DimToken) : Option ℝ :=
  match dims.filterMap candidateOfToken with
  | [] => none
  | c => some (median c)

/-! ### Pixel shapes and bounding boxes -/

/-- A room record from the input JSON: an optional name and a pixel
polygon (a missing or null poly_px reads as the empty list). -/
structure RoomPx where
  name : Option String
  polyPx : List (ℚ × ℚ)
  deriving DecidableEq

/-- A wall record from the input JSON: a pixel polyline. -/
structure WallPx where
  polyPx : List (ℚ × ℚ)
  deriving DecidableEq

/-- The fallback name logic `r.get("name") or "Room"`: a missing or empty
(falsy) name becomes "Room". -/
def nameOr (o : Option String) : String :=
  match o with
  | some s => if s = "" then "Room" else s
  | none => "Room"

/-- Smallest and largest elements of a non-empty rational list, the model
of Python min and max. -/
def minMaxQ (x : ℚ) (xs : List ℚ) : ℚ × ℚ :=
  (xs.foldl min x, xs.foldl max x)

/-- Corner rectangle of the bounding box of a coordinate cloud, in the
corner order the source builds: bottom-left, bottom-right, top-right,
top-left (in image coordinates). -/
def cornersOf (minx maxx miny maxy : ℚ) : List (ℚ × ℚ) :=
  [(minx, miny), (maxx, miny), (maxx, maxy), (minx, maxy)]

/-- Model of `_bbox_from_walls_px`: bounding rectangle of every vertex of
every wall polyline, or nothing when there are no vertices. -/
def bboxFromWallsPx (walls : List WallPx) : Option (List (ℚ × ℚ)) :=
  let pts := walls.flatMap (fun w => w.polyPx)
  match pts with
  | [] => none
  | p :: rest =>
    let mmx := minMaxQ p.1 (rest.map (fun q => q.1))
    let mmy := minMaxQ p.2 (rest.map (fun q => q.2))
    some (cornersOf mmx.1 mmx.2 mmy.1 mmy.2)

/-- Model of `_bbox_from_rooms_px`: same computation over room polygons. -/
def bboxFromRoomsPx (rooms : List RoomPx) : Option (List (ℚ × ℚ)) :=
  let pts := rooms.flatMap (fun r => r.polyPx)
  match pts with
  | [] => none
  | p :: rest =>
    let mmx := minMaxQ p.1 (rest.map (fun q => q.1))
    let mmy := minMaxQ p.2 (rest.map (fun q => q.2))
    some (cornersOf mmx.1 mmx.2 mmy.1 mmy.2)

/-- Model of `_bbox_union_px`: the bounding rectangle of the corner
points of both partial boxes, or whichever exists, or nothing. -/
def bboxUnionPx (walls : List WallPx) (rooms : List RoomPx) : Option (List (ℚ × ℚ)) :=
  match bboxFromWallsPx walls, bboxFromRoomsPx rooms with
  | none, none => none
  | some bw, none => some bw
  | none, some br => some br
  | some bw, some br =>
    let xs := bw.map (fun p => p.1) ++ br.map (fun p => p.1)
    let ys := bw.map (fun p => p.2) ++ br.map (fun p => p.2)
    match xs, ys with
    | x :: xrest, y :: yrest =>
      let mmx := minMaxQ x xrest
      let mmy := minMaxQ y yrest
      some (cornersOf mmx.1 mmx.2 mmy.1 mmy.2)
    | _, _ => some bw

/-! ### Manual override and the tiered scale resolution of build_metrics -/

/-- The manual_scale.json record: optional known width and height in feet.
A missing or unreadable file reads as two absent fields. -/
structure ManualScale where
  knownWidthFt : Option ℚ
  knownHeightFt : Option ℚ
  deriving DecidableEq

/-- The `or None` coercion the source applies to each manual field: a
falsy value (absent, or zero) becomes absent. -/
def orFalsy (o : Option ℚ) : Option ℚ :=
  match o with
  | some v => if v = 0 then none else some v
  | none => none

/-- The if-elif ladder shared by both manual branches: prefer the known
width over a positive horizontal extent, else the known height over a
positive vertical extent, else nothing. -/
def manualFromExtents (kw kh : Option ℚ) (pxW pxH : ℚ) : Option ℚ :=
  match kw with
  | some w =>
    if 0 < pxW then some (w / pxW)
    else
      match kh with
      | some h => if 0 < pxH then some (h / pxH) else none
      | none => none
  | none =>
    match kh with
    | some h => if 0 < pxH then some (h / pxH) else none
    | none => none

/-- The manual-override step of `build_metrics` (lines 177 to 201): when a
manual field is present, recompute the scale from the union bounding box,
or failing that from the image size; returns the possibly replaced scale,
the possibly replaced provenance tag, and whether the override applied.
`img` is the size of the preprocessed image, absent when no path was
given or the file cannot be opened (the source swallows the exception). -/
noncomputable def manualStep (kw kh : Option ℚ) (wallsPx : List WallPx)
    (roomsPx : List RoomPx) (img : Option (ℚ × ℚ)) (ft : Option ℝ)
    (src : String) : Option ℝ × String × Bool :=
  if kw.isSome || kh.isSome then
    match bboxUnionPx wallsPx roomsPx with
    | some bbox =>
      -- the source unpacks the four corners; bboxUnionPx always yields four
      match bbox with
      | (minx, miny) :: _ :: (maxx, maxy) :: _ =>
        match manualFromExtents kw kh (maxx - minx) (maxy - miny) with
        | some v => (some ((v : ℝ)), "manual", true)
        | none => (ft, src, false)
      | _ => (ft, src, false)
    | none =>
      match img with
      | some wh =>
        match manualFromExtents kw kh wh.1 wh.2 with
        | some v => (some ((v : ℝ)), "manual", true)
        | none => (ft, src, false)
      | none => (ft, src, false)
  else (ft, src, false)

/-- Substring test on strings, via their character lists. -/
def strHas (needle hay : String) : Bool :=
  decide (needle.data <:+: hay.data)

/-- The three door-width substrings scanned by the heuristic tier.  The
source checks them after replacing curly quotes in the token text, so the
third (curly) variant can never fire; it is kept verbatim. -/
def doorSubstrings : List String :=
  [String.mk ['2', sqCh, '-', '8'],
   String.mk ['2', sqCh, ' ', '-', ' ', '8'],
   String.mk ['2', '’', '-', '8']]

/-- The guess list of the heuristic tier (lines 205 to 213): tokens whose
text contains a known door-width substring and whose endpoints are more
than 3 pixels apart contribute the ratio 2.6667 over the pixel distance. -/
noncomputable def heuristicGuesses (dims : List DimToken) : List ℝ :=
  dims.filterMap (fun d =>
    let txt := String.mk ((d.text.getD "").data.map
      (fun c => if c = '’' then sqCh else c))
    if (doorSubstrings.map (fun s => strHas s txt)).any id then
      match d.p1, d.p2 with
      | some p1, some p2 =>
        let pix := pxDist p1 p2
        if 3 < pix then some ((2.6667 : ℝ) / pix) else none
      | _, _ => none
    else none)

/-- The heuristic step (lines 204 to 216): only when no scale is resolved
yet, take the median of the guesses; note the source tags this tier with
provenance "ocr". -/
noncomputable def heuristicStep (dims : List DimToken) (ft : Option ℝ)
    (src : String) : Option ℝ × String :=
  match ft with
  | some v => (some v, src)
  | none =>
    match heuristicGuesses dims with
    | [] => (none, src)
    | g => (some (median g), "ocr")

/-- The full scale resolution of `build_metrics`: OCR median, manual
override, heuristic, then the fixed default 0.02 tagged "default".
Returns the scale, its provenance tag, and the manual_used flag. -/
noncomputable def resolveScale (dims : List DimToken) (wallsPx : List WallPx)
    (roomsPx : List RoomPx) (ms : ManualScale) (img : Option (ℚ × ℚ)) :
    ℝ × String × Bool :=
  let ft1 := estimateScaleFromDims dims
  let src1 := if ft1.isSome then "ocr" else "default"
  let kw := orFalsy ms.knownWidthFt
  let kh := orFalsy ms.knownHeightFt
  let m := manualStep kw kh wallsPx roomsPx img ft1 src1
  let h := heuristicStep dims m.1 m.2.1
  match h.1 with
  | none => ((0.02 : ℝ), "default", m.2.2)
  | some v => (v, h.2, m.2.2)

/-! ### Room and wall normalization -/

/-- One output room record of metrics_area.json. -/
structure RoomFt where
  name : String
  polygonFt : List (ℝ × ℝ)
  areaFt2 : ℝ
  perimeterFt : ℝ

/-- One output wall record of metrics_walls.json (geometry side). -/
structure WallFt where
  polylineFt : List (ℝ × ℝ)
  lengthFt : ℝ

/-- The room loop of `build_metrics` (lines 223 to 237): scale each pixel
polygon with at least three vertices, keep it when its area exceeds the
noise epsilon 0.01, rounding the stored area and perimeter. -/
noncomputable def normalizeRooms (s : ℝ) (roomsPx : List RoomPx) : List RoomFt :=
  roomsPx.filterMap (fun r =>
    if r.polyPx.length < 3 then none
    else
      let polyFt := scalePoly r.polyPx s
      let ap := shoelace polyFt
      if 0.01 < ap.1 then
        some ⟨nameOr r.name, polyFt, round3 ap.1, round3 ap.2⟩
      else none)

/-- The wall loop of `build_metrics` (lines 298 to 307): scale each
polyline with at least two vertices and sum consecutive distances. -/
noncomputable def normalizeWalls (s : ℝ) (wallsPx : List WallPx) : List WallFt :=
  wallsPx.filterMap (fun w =>
    if w.polyPx.length < 2 then none
    else
      let polyFt := scalePoly w.polyPx s
      let len := ((polyFt.zip polyFt.tail).map (fun pq => distR pq.1 pq.2)).sum
      some ⟨polyFt, round3 len⟩)

/-! ### Fallback room synthesis -/

/-- Model of `_synthesize_small_box_ft`: the 10 by 10 placeholder. -/
noncomputable def synthBoxFt : List (ℝ × ℝ) :=
  [(0, 0), (10, 0), (10, 10), (0, 10)]

/-- The SyntheticArea placeholder room. -/
noncomputable def synthRoom : RoomFt :=
  ⟨"SyntheticArea", synthBoxFt, round3 (shoelace synthBoxFt).1,
    round3 (shoelace synthBoxFt).2⟩

/-- The aspect-ratio inference for a missing height (line 250). -/
def inferKh (kw kh : Option ℚ) (iw ih : ℚ) : Option ℚ :=
  match kw, kh with
  | some w, none => if 0 < iw then some (w * (ih / iw)) else none
  | _, _ => kh

/-- The aspect-ratio inference for a missing width (line 252), applied
after the height inference as in the source. -/
def inferKw (kw kh1 : Option ℚ) (iw ih : ℚ) : Option ℚ :=
  match kh1, kw with
  | some h, none => if 0 < ih then some (h * (iw / ih)) else none
  | _, _ => kw

/-- The manual GrossArea synthesis (lines 244 to 271): with the image
size available, build the rectangle from known width and height (inferred
from the aspect ratio when only one is given), or fall back to the scaled
image rectangle. -/
noncomputable def manualGrossRooms (s : ℝ) (kw kh : Option ℚ) (iw ih : ℚ) :
    List RoomFt :=
  let kh1 := inferKh kw kh iw ih
  let kw1 := inferKw kw kh1 iw ih
  let polyFt :=
    match kw1, kh1 with
    | some w, some h => [((0 : ℝ), (0 : ℝ)), ((w : ℝ), 0), ((w : ℝ), (h : ℝ)), (0, (h : ℝ))]
    | _, _ => scalePoly [(0, 0), (iw, 0), (iw, ih), (0, ih)] s
  let ap := shoelace polyFt
  [⟨"GrossArea", polyFt, round3 ap.1, round3 ap.2⟩]

/-- The bbox fallback room (lines 275 to 286): scale the union bounding
box; replace it by the small synthetic box when its area is below the
epsilon, but keep the name GrossArea. -/
noncomputable def grossFromBboxRoom (s : ℝ) (bbox : List (ℚ × ℚ)) : RoomFt :=
  let polyFt := scalePoly bbox s
  let ap := shoelace polyFt
  if ap.1 ≤ 0.01 then
    ⟨"GrossArea", synthBoxFt, round3 (shoelace synthBoxFt).1,
      round3 (shoelace synthBoxFt).2⟩
  else ⟨"GrossArea", polyFt, round3 ap.1, round3 ap.2⟩

/-- The whole fallback chain of step 4 of `build_metrics`, entered only
when no room survived normalization. -/
noncomputable def fallbackRooms (s : ℝ) (mu : Bool) (kw kh : Option ℚ)
    (wallsPx : List WallPx) (roomsPx : List RoomPx) (img : Option (ℚ × ℚ)) :
    List RoomFt :=
  let bboxPx := bboxUnionPx wallsPx roomsPx
  let r1 : List RoomFt :=
    if mu && bboxPx.isNone then
      match img with
      | some wh => manualGrossRooms s kw kh wh.1 wh.2
      | none => []
    else []
  if r1.isEmpty then
    match bboxPx with
    | some bbox => [grossFromBboxRoom s bbox]
    | none => [synthRoom]
  else r1

/-! ### The geometry result record and build_metrics -/

/-- The aggregate output of `build_metrics` (file writing dropped). -/
structure GeometryResult where
  scaleFtPerPx : ℝ
  scaleSource : String
  rooms : List RoomFt
  walls : List WallFt
  totalAreaFt2 : ℝ
  totalPerimeterFt : ℝ
  totalWallLengthFt : ℝ

/-- Model of `build_metrics`: resolve the scale over the four tiers,
normalize rooms and walls, guarantee a non-empty room list through the
fallback chain, and aggregate rounded totals. -/
noncomputable def buildMetrics (dims : List DimToken) (wallsPx : List WallPx)
    (roomsPx : List RoomPx) (ms : ManualScale) (img : Option (ℚ × ℚ)) :
    GeometryResult :=
  let rs := resolveScale dims wallsPx roomsPx ms img
  let s := rs.1
  let kw := orFalsy ms.knownWidthFt
  let kh := orFalsy ms.knownHeightFt
  let rooms0 := normalizeRooms s roomsPx
  let rooms :=
    if rooms0.isEmpty then fallbackRooms s rs.2.2 kw kh wallsPx roomsPx img
    else rooms0
  let walls := normalizeWalls s wallsPx
  { scaleFtPerPx := s
    scaleSource := rs.2.1
    rooms := rooms
    walls := walls
    totalAreaFt2 := round3 ((rooms.map (fun r => r.areaFt2)).sum)
    totalPerimeterFt := round3 ((rooms.map (fun r => r.perimeterFt)).sum)
    totalWallLengthFt := round3 ((walls.map (fun w => w.lengthFt)).sum) }

/-! ### Model of src/metrics_walls.py -/

/-- One line record of the scaled-lines input: two pixel endpoints. -/
structure Segment where
  p1 : ℚ × ℚ
  p2 : ℚ × ℚ
  deriving DecidableEq

/-- Model of `line_length_px` (math.hypot). -/
noncomputable def lineLengthPx (L : Segment) : ℝ := pxDist L.p1 L.p2

/-- Real-world length of a segment: pixel length times per_pixel. -/
noncomputable def lengthReal (perpx : ℚ) (L : Segment) : ℝ :=
  lineLengthPx L * (perpx : ℝ)

/-- Model of `classify_exterior`: a line is exterior when any endpoint is
within margin_px of any image border. -/
def classifyExterior (p1 p2 : ℚ × ℚ) (w h margin : ℚ) : Bool :=
  let nearLeft := decide (p1.1 ≤ margin) || decide (p2.1 ≤ margin)
  let nearRight := decide (w - margin ≤ p1.1) || decide (w - margin ≤ p2.1)
  let nearTop := decide (p1.2 ≤ margin) || decide (p2.2 ≤ margin)
  let nearBottom := decide (h - margin ≤ p1.2) || decide (h - margin ≤ p2.2)
  nearLeft || nearRight || nearTop || nearBottom

/-- The exterior-length accumulator total_ext_real of the main loop. -/
noncomputable def totalExtReal (w h margin : ℚ) (perpx : ℚ)
    (lines : List Segment) : ℝ :=
  ((lines.filter (fun L => classifyExterior L.p1 L.p2 w h margin)).map
    (lengthReal perpx)).sum

/-- The interior-length accumulator total_int_real of the main loop. -/
noncomputable def totalIntReal (w h margin : ℚ) (perpx : ℚ)
    (lines : List Segment) : ℝ :=
  ((lines.filter (fun L => !classifyExterior L.p1 L.p2 w h margin)).map
    (lengthReal perpx)).sum

/-- The all-lines accumulator total_len_real of the main loop. -/
noncomputable def totalAllReal (perpx : ℚ) (lines : List Segment) : ℝ :=
  (lines.map (lengthReal perpx)).sum

/-- The x coordinates of all endpoints, in the comprehension order of the
source. -/
def xsOf (lines : List Segment) : List ℚ :=
  lines.flatMap (fun L => [L.p1.1, L.p2.1])

/-- The y coordinates of all endpoints. -/
def ysOf (lines : List Segment) : List ℚ :=
  lines.flatMap (fun L => [L.p1.2, L.p2.2])

/-- The bounding box (minx, maxx, miny, maxy) over all endpoints; Python
min and max raise on an empty sequence, modelled as no result. -/
def bboxOfLines (lines : List Segment) : Option (ℚ × ℚ × ℚ × ℚ) :=
  match xsOf lines, ysOf lines with
  | x :: xs, y :: ys =>
    let mmx := minMaxQ x xs
    let mmy := minMaxQ y ys
    some (mmx.1, mmx.2, mmy.1, mmy.2)
  | _, _ => none

/-- The metrics record assembled by the main function of metrics_walls.py
(rendering and file outputs dropped). -/
structure WallMetrics where
  countTotal : Nat
  countExterior : Nat
  countInterior : Nat
  sumAll : ℝ
  sumExterior : ℝ
  sumInterior : ℝ
  bboxPerimeter : ℝ
  bboxPx : ℚ × ℚ × ℚ × ℚ

/-- Model of the metrics computation of metrics_walls.py: the per-class
counts and rounded totals, and the cross-check bounding-box perimeter.
The bounding box is computed after the loop; on an empty line list the
min call raises, so no record is produced at all. -/
noncomputable def computeWallMetrics (w h margin perpx : ℚ)
    (lines : List Segment) : Option WallMetrics :=
  (bboxOfLines lines).map (fun bb =>
    { countTotal := lines.length
      countExterior :=
        (lines.filter (fun L => classifyExterior L.p1 L.p2 w h margin)).length
      countInterior :=
        (lines.filter (fun L => !classifyExterior L.p1 L.p2 w h margin)).length
      sumAll := round3 (totalAllReal perpx lines)
      sumExterior := round3 (totalExtReal w h margin perpx lines)
      sumInterior := round3 (totalIntReal w h margin perpx lines)
      bboxPerimeter :=
        round3 (((2 * ((bb.2.1 - bb.1) + (bb.2.2.2 - bb.2.2.1)) : ℚ) : ℝ) * (perpx : ℝ))
      bboxPx := bb })

/-! ### Evaluation and structural lemmas -/

lemma distR_eval (p q : ℝ × ℝ) (b : ℝ) (hb : 0 ≤ b)
    (h : (p.1 - q.1) ^ 2 + (p.2 - q.2) ^ 2 = b ^ 2) : distR p q = b := by
  unfold distR
  rw [h]
  exact Real.sqrt_sq hb

lemma pxDist_eval (p q : ℚ × ℚ) (b : ℝ) (hb : 0 ≤ b)
    (h : ((p.1 : ℝ) - (q.1 : ℝ)) ^ 2 + ((p.2 : ℝ) - (q.2 : ℝ)) ^ 2 = b ^ 2) :
    pxDist p q = b := by
  unfold pxDist
  exact distR_eval _ _ b hb (by simpa [castPt] using h)

lemma pxDist_nonneg (p q : ℚ × ℚ) : 0 ≤ pxDist p q :=
  Real.sqrt_nonneg _

lemma round3_intCast (n : ℤ) : round3 ((n : ℝ)) = (n : ℝ) := by
  unfold round3
  rw [show ((n : ℝ) * 1000) = (((n * 1000 : ℤ) : ℝ)) by push_cast; ring,
    round_intCast]
  push_cast
  ring

lemma mem_insertR {y x : ℝ} {l : List ℝ} :
    y ∈ insertR x l → y = x ∨ y ∈ l := by
  induction l with
  | nil => simp [insertR]
  | cons a t ih =>
    simp only [insertR]
    split
    · intro h
      simpa using h
    · intro h
      rcases List.mem_cons.mp h with h1 | h2
      · exact Or.inr (by simp [h1])
      · rcases ih h2 with h3 | h4
        · exact Or.inl h3
        · exact Or.inr (List.mem_cons_of_mem _ h4)

lemma length_insertR (x : ℝ) (l : List ℝ) :
    (insertR x l).length = l.length + 1 := by
  induction l with
  | nil => rfl
  | cons a t ih =>
    simp only [insertR]
    split
    · simp
    · simp [ih]

lemma length_sortR (l : List ℝ) : (sortR l).length = l.length := by
  induction l with
  | nil => rfl
  | cons a t ih => simp [sortR, length_insertR, ih]

lemma mem_sortR {y : ℝ} {l : List ℝ} : y ∈ sortR l → y ∈ l := by
  induction l with
  | nil => simp [sortR]
  | cons a t ih =>
    intro h
    rcases mem_insertR h with h1 | h2
    · simp [h1]
    · exact List.mem_cons_of_mem _ (ih h2)

lemma median_pos {l : List ℝ} (hne : l ≠ []) (hpos : ∀ x ∈ l, 0 < x) :
    0 < median l := by
  have hlen : 0 < l.length := List.length_pos.mpr hne
  have hslen : (sortR l).length = l.length := length_sortR l
  have hmem : ∀ i, i < l.length → 0 < (sortR l).getD i 0 := by
    intro i hi
    have hi2 : i < (sortR l).length := by omega
    rw [List.getD_eq_getElem _ _ hi2]
    exact hpos _ (mem_sortR (List.getElem_mem _))
  unfold median
  split
  · exact hmem _ (Nat.div_lt_self hlen (by norm_num))
  · rename_i hodd
    have h2 : l.length % 2 = 0 := by omega
    have hge2 : 2 ≤ l.length := by omega
    have ha := hmem (l.length / 2 - 1) (by omega)
    have hb := hmem (l.length / 2) (Nat.div_lt_self hlen (by norm_num))
    positivity

lemma median_singleton (a : ℝ) : median [a] = a := by
  simp [median, sortR, insertR]

lemma median_pair_same (a : ℝ) : median [a, a] = a := by
  simp [median, sortR, insertR]

/-! ### The survivor view of the OCR tier, for claim C1 -/

/-- A token survives the OCR-tier filter: both endpoints present, pixel
distance above 3, parsed length strictly positive. -/
noncomputable def survB (d : DimToken) : Bool :=
  match d.p1, d.p2 with
  | some p1, some p2 =>
    if pxDist p1 p2 ≤ 3 then false
    else
      match feetVal d with
      | some v => decide (0 < v)
      | none => false
  | _, _ => false

/-- The ratio a surviving token contributes: parsed length over pixel
distance (junk 0 on non-survivors, never used). -/
noncomputable def ratioOf (d : DimToken) : ℝ :=
  match d.p1, d.p2, feetVal d with
  | some p1, some p2, some v => (v : ℝ) / pxDist p1 p2
  | _, _, _ => 0

lemma candidateOfToken_eq (d : DimToken) :
    candidateOfToken d = if survB d then some (ratioOf d) else none := by
  unfold candidateOfToken survB ratioOf
  rcases h1 : d.p1 with _ | p1
  · simp [h1]
  · rcases h2 : d.p2 with _ | p2
    · simp [h1, h2]
    · rcases h3 : feetVal d with _ | v
      · by_cases hle : pxDist p1 p2 ≤ 3 <;> simp [h1, h2, h3, hle]
      · by_cases hle : pxDist p1 p2 ≤ 3
        · simp [h1, h2, h3, hle]
        · by_cases hv : 0 < v <;> simp [h1, h2, h3, hle, hv]

lemma filterMap_candidates (l : List DimToken) :
    l.filterMap candidateOfToken = (l.filter survB).map ratioOf := by
  induction l with
  | nil => rfl
  | cons d t ih =>
    rw [List.filterMap_cons, List.filter_cons, candidateOfToken_eq d]
    cases hs : survB d <;> simp [hs, ih]

/-! ### Claim C1: the OCR tier -/

/-- First evidence token of scenario A: 500 px across, 10 ft. -/
def tokA1 : DimToken := ⟨some (0, 0), some (500, 0), some (FeetField.num 10), none⟩

/-- Second evidence token of scenario A: 250 px across, 5 ft. -/
def tokA2 : DimToken := ⟨some (0, 0), some (250, 0), some (FeetField.num 5), none⟩

/-- The two evidence pairs of scenario A. -/
def dimsScenarioA : List DimToken := [tokA1, tokA2]

lemma pxDistA1 : pxDist ((0 : ℚ), (0 : ℚ)) ((500 : ℚ), (0 : ℚ)) = 500 :=
  pxDist_eval _ _ 500 (by norm_num) (by push_cast; norm_num)

lemma pxDistA2 : pxDist ((0 : ℚ), (0 : ℚ)) ((250 : ℚ), (0 : ℚ)) = 250 :=
  pxDist_eval _ _ 250 (by norm_num) (by push_cast; norm_num)

lemma candA1 : candidateOfToken tokA1 = some ((0.02 : ℝ)) := by
  simp only [candidateOfToken, tokA1, feetVal]
  rw [pxDistA1]
  norm_num

lemma candA2 : candidateOfToken tokA2 = some ((0.02 : ℝ)) := by
  simp only [candidateOfToken, tokA2, feetVal]
  rw [pxDistA2]
  norm_num

lemma survA1 : survB tokA1 = true := by
  simp only [survB, tokA1, feetVal]
  rw [pxDistA1]
  norm_num

/-- C1: for every list of dimension tokens the OCR-tier estimate discards
the tokens that do not survive the noise and positivity filter, returns
the median of the length-over-pixel-distance ratios of the survivors, and
fails exactly when no token survives; on the two scenario-A evidence
pairs (500 px, 10 ft) and (250 px, 5 ft) it resolves 0.02 ft per px. -/
theorem C1_ocr_tier_median :
    (∀ dims : List DimToken,
      (dims.filter survB = [] → estimateScaleFromDims dims = none) ∧
      (dims.filter survB ≠ [] →
        estimateScaleFromDims dims =
          some (median ((dims.filter survB).map ratioOf)))) ∧
    estimateScaleFromDims dimsScenarioA = some ((0.02 : ℝ)) := by
  have hmain : ∀ dims : List DimToken,
      (dims.filter survB = [] → estimateScaleFromDims dims = none) ∧
      (dims.filter survB ≠ [] →
        estimateScaleFromDims dims =
          some (median ((dims.filter survB).map ratioOf))) := by
    intro dims
    constructor
    · intro h
      unfold estimateScaleFromDims
      rw [filterMap_candidates, h]
      rfl
    · intro h
      unfold estimateScaleFromDims
      rw [filterMap_candidates]
      cases hf : dims.filter survB with
      | nil => exact absurd hf h
      | cons a t => rfl
  refine ⟨hmain, ?_⟩
  have hc : dimsScenarioA.filterMap candidateOfToken = [(0.02 : ℝ), 0.02] := by
    simp [dimsScenarioA, candA1, candA2]
  unfold estimateScaleFromDims
  rw [hc]
  exact congrArg some (median_pair_same 0.02)

/-- Witness for C1: scenario A has a non-empty survivor list and the
theorem applies to it. -/
theorem C1_ocr_tier_median_witness :
    dimsScenarioA.filter survB ≠ [] ∧
    estimateScaleFromDims dimsScenarioA =
      some (median ((dimsScenarioA.filter survB).map ratioOf)) := by
  have hne : dimsScenarioA.filter survB ≠ [] := by
    simp [dimsScenarioA, List.filter, survA1]
  exact ⟨hne, (C1_ocr_tier_median.1 dimsScenarioA).2 hne⟩

/-! ### Claim C4: the dimension parser boundary cases -/

/-- The token 12 feet 6 inches written with the dash of the spec example. -/
def strTwelveDashSix : String := String.mk ['1', '2', sqCh, '-', '6', dqCh]

/-- The same token without the dash, the nearest form the parser accepts. -/
def strTwelveSpaceSix : String := String.mk ['1', '2', sqCh, ' ', '6', dqCh]

/-- C4: boundary behaviour of the dimension parsers.  The spec and the
comment in ocr_dims.py both promise 12.5 ft for the dashed feet-inch
token, but neither regex can cross the dash, so both parsers yield null
on it; the undashed variant does combine as ft + in over 12, 8 feet and
the millimetre form convert as stated, and unmatched text yields null. -/
theorem C4_parser_boundary :
    toFeet strTwelveDashSix = none ∧
    parseDimension strTwelveDashSix = none ∧
    toFeet (String.mk ['8', sqCh]) = some 8 ∧
    toFeet "150mm" = some (150 * ftPerMm) ∧
    (150 * ftPerMm : ℚ) = 492125985 / 1000000000 ∧
    toFeet "abc" = none ∧
    toFeet strTwelveSpaceSix = some (12 + 6 / 12) := by
  refine ⟨by decide, by decide, by decide, ?_, by norm_num [ftPerMm],
    by decide, ?_⟩
  · simp +decide [toFeet, stripChars, skipWs, normQuotes, altFt, altIn,
      altMm, decCandidates, unit1Rems, unit2Rems, inchTry, dropLit,
      digitsToNat, boundaryOk, isWordChar, sqCh, dqCh, List.range_succ]
  · simp +decide [toFeet, strTwelveSpaceSix, stripChars, skipWs, normQuotes,
      altFt, altIn, altMm, decCandidates, unit1Rems, unit2Rems, inchTry,
      dropLit, digitsToNat, boundaryOk, isWordChar, sqCh, dqCh,
      List.range_succ]

/-! ### Claim C9: wall classification and length aggregation -/

/-- C9: a segment is classified exterior exactly when one of its
endpoints lies within the margin of one of the four image borders, and
the exterior and interior length totals partition the total length. -/
theorem C9_classify_and_totals :
    (∀ (p1 p2 : ℚ × ℚ) (w h margin : ℚ),
      classifyExterior p1 p2 w h margin = true ↔
        ∃ p ∈ [p1, p2], p.1 ≤ margin ∨ w - margin ≤ p.1 ∨
          p.2 ≤ margin ∨ h - margin ≤ p.2) ∧
    (∀ (w h margin perpx : ℚ) (lines : List Segment),
      totalExtReal w h margin perpx lines +
        totalIntReal w h margin perpx lines = totalAllReal perpx lines) := by
  constructor
  · intro p1 p2 w h margin
    simp only [classifyExterior, Bool.or_eq_true, decide_eq_true_eq,
      List.mem_cons, List.not_mem_nil, or_false, exists_eq_or_imp,
      exists_eq_left]
    tauto
  · intro w h margin perpx lines
    induction lines with
    | nil => simp [totalExtReal, totalIntReal, totalAllReal]
    | cons L t ih =>
      simp only [totalExtReal, totalIntReal, totalAllReal,
        List.filter_cons, List.map_cons, List.sum_cons] at ih ⊢
      cases hc : classifyExterior L.p1 L.p2 w h margin <;>
        simp only [hc, Bool.not_true, Bool.not_false, if_pos, if_neg,
          Bool.false_eq_true, ite_true, ite_false, List.map_cons,
          List.sum_cons] <;> linarith [ih]

/-- Witness for C9: a segment touching the left border of a 1000 by 800
image is exterior. -/
theorem C9_classify_and_totals_witness :
    classifyExterior ((0 : ℚ), (400 : ℚ)) ((400 : ℚ), (400 : ℚ)) 1000 800 30 = true :=
  (C9_classify_and_totals.1 (0, 400) (400, 400) 1000 800 30).mpr
    ⟨(0, 400), by simp, Or.inl (by norm_num)⟩

/-! ### Claim C10: empty input to the wall aggregator -/

/-- C10: on an empty segment list the bounding-box computation has no
result, so no metrics record is produced; with at least one segment the
record always exists. -/
theorem C10_empty_lines_raise :
    (∀ w h margin perpx : ℚ, computeWallMetrics w h margin perpx [] = none) ∧
    (∀ (w h margin perpx : ℚ) (L : Segment) (ls : List Segment),
      (computeWallMetrics w h margin perpx (L :: ls)).isSome = true) := by
  constructor
  · intro w h margin perpx
    rfl
  · intro w h margin perpx L ls
    simp [computeWallMetrics, bboxOfLines, xsOf, ysOf]

/-! ### Helpers for evaluating build_metrics -/

lemma distR_horizAbs (x1 x2 y : ℝ) : distR (x1, y) (x2, y) = |x1 - x2| :=
  distR_eval _ _ _ (abs_nonneg _) (by rw [sq_abs]; ring)

lemma distR_vertAbs (x y1 y2 : ℝ) : distR (x, y1) (x, y2) = |y1 - y2| :=
  distR_eval _ _ _ (abs_nonneg _) (by rw [sq_abs]; ring)

lemma round3_hundred : round3 ((100 : ℝ)) = 100 := by
  have h := round3_intCast 100
  norm_num at h
  exact h

lemma round3_forty : round3 ((40 : ℝ)) = 40 := by
  have h := round3_intCast 40
  norm_num at h
  exact h

lemma buildMetrics_scale (dims : List DimToken) (walls : List WallPx)
    (rooms : List RoomPx) (ms : ManualScale) (img : Option (ℚ × ℚ)) :
    (buildMetrics dims walls rooms ms img).scaleFtPerPx =
      (resolveScale dims walls rooms ms img).1 := rfl

lemma buildMetrics_source (dims : List DimToken) (walls : List WallPx)
    (rooms : List RoomPx) (ms : ManualScale) (img : Option (ℚ × ℚ)) :
    (buildMetrics dims walls rooms ms img).scaleSource =
      (resolveScale dims walls rooms ms img).2.1 := rfl

lemma buildMetrics_rooms (dims : List DimToken) (walls : List WallPx)
    (rooms : List RoomPx) (ms : ManualScale) (img : Option (ℚ × ℚ)) :
    (buildMetrics dims walls rooms ms img).rooms =
      (if (normalizeRooms (resolveScale dims walls rooms ms img).1 rooms).isEmpty
        then fallbackRooms (resolveScale dims walls rooms ms img).1
          (resolveScale dims walls rooms ms img).2.2
          (orFalsy ms.knownWidthFt) (orFalsy ms.knownHeightFt) walls rooms img
        else normalizeRooms (resolveScale dims walls rooms ms img).1 rooms) := rfl

lemma heuristicStep_some (dims : List DimToken) (v : ℝ) (src : String) :
    heuristicStep dims (some v) src = (some v, src) := rfl

lemma resolveScale_of_manualStep (dims : List DimToken) (walls : List WallPx)
    (rooms : List RoomPx) (ms : ManualScale) (img : Option (ℚ × ℚ)) (v : ℝ)
    (hm : manualStep (orFalsy ms.knownWidthFt) (orFalsy ms.knownHeightFt)
      walls rooms img (estimateScaleFromDims dims)
      (if (estimateScaleFromDims dims).isSome then "ocr" else "default")
      = (some v, "manual", true)) :
    resolveScale dims walls rooms ms img = (v, "manual", true) := by
  simp only [resolveScale]
  rw [hm]
  rfl

lemma fallbackRooms_pos (s : ℝ) (mu : Bool) (kw kh : Option ℚ)
    (walls : List WallPx) (rooms : List RoomPx) (img : Option (ℚ × ℚ)) :
    0 < (fallbackRooms s mu kw kh walls rooms img).length := by
  unfold fallbackRooms
  set r1 := (if mu && (bboxUnionPx walls rooms).isNone then
      match img with
      | some wh => manualGrossRooms s kw kh wh.1 wh.2
      | none => []
    else ([] : List RoomFt)) with hr1
  by_cases h : r1.isEmpty = true
  · rw [if_pos h]
    cases bboxUnionPx walls rooms <;> simp
  · rw [if_neg h]
    rw [List.length_pos]
    intro hnil
    rw [← hr1] at hnil
    exact h (by simp [hnil])

/-! ### Claim C3: rooms are never empty; the total-absence placeholder -/

lemma shoelace_synthBox : shoelace synthBoxFt = (100, 40) := by
  simp only [shoelace, synthBoxFt, List.rotate, List.length_cons,
    List.length_nil]
  norm_num [List.zip, List.zipWith, distR_horizAbs, distR_vertAbs,
    -Prod.mk_zero_zero]

lemma synthRoom_eval :
    synthRoom = ⟨"SyntheticArea",
      [((0 : ℝ), (0 : ℝ)), (10, 0), (10, 10), (0, 10)], 100, 40⟩ := by
  unfold synthRoom
  rw [shoelace_synthBox]
  simp [synthBoxFt, round3_hundred, round3_forty]

/-- C3: the geometry result always contains at least one room (the model
of the run is a total function, so no exception escapes), and with no
tokens, no pixel shapes, no manual record and no fallback image the
output is exactly one synthetic room, the 10 by 10 placeholder of area
100, with scale provenance "default". -/
theorem C3_rooms_nonempty_and_absence :
    (∀ (dims : List DimToken) (walls : List WallPx) (rooms : List RoomPx)
       (ms : ManualScale) (img : Option (ℚ × ℚ)),
      0 < (buildMetrics dims walls rooms ms img).rooms.length) ∧
    (buildMetrics [] [] [] ⟨none, none⟩ none).rooms =
      [⟨"SyntheticArea", [((0 : ℝ), (0 : ℝ)), (10, 0), (10, 10), (0, 10)],
        100, 40⟩] ∧
    (buildMetrics [] [] [] ⟨none, none⟩ none).scaleSource = "default" := by
  refine ⟨?_, ?_, rfl⟩
  · intro dims walls rooms ms img
    rw [buildMetrics_rooms]
    by_cases h :
        (normalizeRooms (resolveScale dims walls rooms ms img).1 rooms).isEmpty = true
    · rw [if_pos h]
      exact fallbackRooms_pos _ _ _ _ _ _ _
    · rw [if_neg h]
      rw [List.length_pos]
      intro hnil
      exact h (by simp [hnil])
  · have hr : (buildMetrics [] [] [] ⟨none, none⟩ none).rooms = [synthRoom] := rfl
    rw [hr, synthRoom_eval]

/-! ### Claim C2: the manual-override tier -/

/-- C2: whenever the caller supplies a known width or height (a zero
value counts as absent, mirroring the falsy test of the source) and the
relevant pixel extent is positive, the resolved scale is known length
over pixel extent and the provenance becomes "manual", replacing any OCR
result; the extent comes from the union bounding box when one exists,
else from the image size; width is preferred over height. -/
theorem C2_manual_override :
    (∀ (dims : List DimToken) (walls : List WallPx) (rooms : List RoomPx)
       (ms : ManualScale) (img : Option (ℚ × ℚ))
       (minx miny x2 y2 maxx maxy x4 y4 w : ℚ),
      bboxUnionPx walls rooms =
        some [(minx, miny), (x2, y2), (maxx, maxy), (x4, y4)] →
      orFalsy ms.knownWidthFt = some w →
      0 < maxx - minx →
      (buildMetrics dims walls rooms ms img).scaleFtPerPx =
        ((w / (maxx - minx) : ℚ) : ℝ) ∧
      (buildMetrics dims walls rooms ms img).scaleSource = "manual") ∧
    (∀ (dims : List DimToken) (walls : List WallPx) (rooms : List RoomPx)
       (ms : ManualScale) (img : Option (ℚ × ℚ))
       (minx miny x2 y2 maxx maxy x4 y4 hv : ℚ),
      bboxUnionPx walls rooms =
        some [(minx, miny), (x2, y2), (maxx, maxy), (x4, y4)] →
      orFalsy ms.knownWidthFt = none →
      orFalsy ms.knownHeightFt = some hv →
      0 < maxy - miny →
      (buildMetrics dims walls rooms ms img).scaleFtPerPx =
        ((hv / (maxy - miny) : ℚ) : ℝ) ∧
      (buildMetrics dims walls rooms ms img).scaleSource = "manual") ∧
    (∀ (dims : List DimToken) (walls : List WallPx) (rooms : List RoomPx)
       (ms : ManualScale) (iw ih w : ℚ),
      bboxUnionPx walls rooms = none →
      orFalsy ms.knownWidthFt = some w →
      0 < iw →
      (buildMetrics dims walls rooms ms (some (iw, ih))).scaleFtPerPx =
        ((w / iw : ℚ) : ℝ) ∧
      (buildMetrics dims walls rooms ms (some (iw, ih))).scaleSource = "manual") ∧
    (∀ (dims : List DimToken) (walls : List WallPx) (rooms : List RoomPx)
       (ms : ManualScale) (iw ih hv : ℚ),
      bboxUnionPx walls rooms = none →
      orFalsy ms.knownWidthFt = none →
      orFalsy ms.knownHeightFt = some hv →
      0 < ih →
      (buildMetrics dims walls rooms ms (some (iw, ih))).scaleFtPerPx =
        ((hv / ih : ℚ) : ℝ) ∧
      (buildMetrics dims walls rooms ms (some (iw, ih))).scaleSource = "manual") := by
  refine ⟨?_, ?_, ?_, ?_⟩
  · intro dims walls rooms ms img minx miny x2 y2 maxx maxy x4 y4 w hbb hkw hpw
    have hm : manualStep (orFalsy ms.knownWidthFt) (orFalsy ms.knownHeightFt)
        walls rooms img (estimateScaleFromDims dims)
        (if (estimateScaleFromDims dims).isSome then "ocr" else "default")
        = (some ((w / (maxx - minx) : ℚ) : ℝ), "manual", true) := by
      unfold manualStep
      rw [hkw, hbb]
      simp [manualFromExtents, hpw]
    have hrs := resolveScale_of_manualStep dims walls rooms ms img _ hm
    rw [buildMetrics_scale, buildMetrics_source, hrs]
    exact ⟨rfl, rfl⟩
  · intro dims walls rooms ms img minx miny x2 y2 maxx maxy x4 y4 hv hbb hkw hkh hph
    have hm : manualStep (orFalsy ms.knownWidthFt) (orFalsy ms.knownHeightFt)
        walls rooms img (estimateScaleFromDims dims)
        (if (estimateScaleFromDims dims).isSome then "ocr" else "default")
        = (some ((hv / (maxy - miny) : ℚ) : ℝ), "manual", true) := by
      unfold manualStep
      rw [hkw, hkh, hbb]
      simp [manualFromExtents, hph]
    have hrs := resolveScale_of_manualStep dims walls rooms ms img _ hm
    rw [buildMetrics_scale, buildMetrics_source, hrs]
    exact ⟨rfl, rfl⟩
  · intro dims walls rooms ms iw ih w hbb hkw hiw
    have hm : manualStep (orFalsy ms.knownWidthFt) (orFalsy ms.knownHeightFt)
        walls rooms (some (iw, ih)) (estimateScaleFromDims dims)
        (if (estimateScaleFromDims dims).isSome then "ocr" else "default")
        = (some ((w / iw : ℚ) : ℝ), "manual", true) := by
      unfold manualStep
      rw [hkw, hbb]
      simp [manualFromExtents, hiw]
    have hrs := resolveScale_of_manualStep dims walls rooms ms _ _ hm
    rw [buildMetrics_scale, buildMetrics_source, hrs]
    exact ⟨rfl, rfl⟩
  · intro dims walls rooms ms iw ih hv hbb hkw hkh hih
    have hm : manualStep (orFalsy ms.knownWidthFt) (orFalsy ms.knownHeightFt)
        walls rooms (some (iw, ih)) (estimateScaleFromDims dims)
        (if (estimateScaleFromDims dims).isSome then "ocr" else "default")
        = (some ((hv / ih : ℚ) : ℝ), "manual", true) := by
      unfold manualStep
      rw [hkw, hkh, hbb]
      simp [manualFromExtents, hih]
    have hrs := resolveScale_of_manualStep dims walls rooms ms _ _ hm
    rw [buildMetrics_scale, buildMetrics_source, hrs]
    exact ⟨rfl, rfl⟩

/-- The single pixel room of scenario B, spanning 400 px horizontally. -/
def roomsScenarioB : List RoomPx :=
  [⟨none, [(0, 0), (400, 0), (400, 300), (0, 300)]⟩]

/-- The manual record of scenario B: known width 20 ft, no height. -/
def msScenarioB : ManualScale := ⟨some 20, none⟩

/-- Witness for C2, scenario B: known width 20 ft over a 400 px wide
union bounding box gives scale 0.05 ft per px with provenance manual. -/
theorem C2_manual_override_witness :
    (buildMetrics [] [] roomsScenarioB msScenarioB none).scaleFtPerPx =
      ((1 / 20 : ℚ) : ℝ) ∧
    (buildMetrics [] [] roomsScenarioB msScenarioB none).scaleSource =
      "manual" := by
  have hbb : bboxUnionPx [] roomsScenarioB =
      some [((0 : ℚ), (0 : ℚ)), (400, 0), (400, 300), (0, 300)] := by decide
  obtain ⟨h1, h2⟩ := C2_manual_override.1 [] [] roomsScenarioB msScenarioB none
    0 0 400 0 400 300 0 300 20 hbb (by decide) (by norm_num)
  refine ⟨?_, h2⟩
  rw [h1]
  norm_num

/-! ### Positivity of every scale tier, for claim C6 -/

lemma candidateOfToken_pos (d : DimToken) (r : ℝ)
    (h : candidateOfToken d = some r) : 0 < r := by
  unfold candidateOfToken at h
  rcases h1 : d.p1 with _ | p1
  · rw [h1] at h; simp at h
  · rcases h2 : d.p2 with _ | p2
    · rw [h1, h2] at h; simp at h
    · rw [h1, h2] at h
      by_cases hle : pxDist p1 p2 ≤ 3
      · simp [hle] at h
      · rcases h3 : feetVal d with _ | v
        · simp [hle, h3] at h
        · by_cases hv : 0 < v
          · simp [hle, h3, hv] at h
            rw [← h]
            exact div_pos (by exact_mod_cast hv)
              (by linarith [not_le.mp hle])
          · simp [hle, h3, hv] at h

lemma estimateScale_pos (dims : List DimToken) (v : ℝ)
    (h : estimateScaleFromDims dims = some v) : 0 < v := by
  unfold estimateScaleFromDims at h
  cases hf : dims.filterMap candidateOfToken with
  | nil => rw [hf] at h; exact absurd h (by simp)
  | cons a t =>
    rw [hf] at h
    have hv : median (a :: t) = v := by simpa using h
    rw [← hv]
    apply median_pos (by simp)
    intro x hx
    have hx2 : x ∈ dims.filterMap candidateOfToken := by rw [hf]; exact hx
    obtain ⟨d, _, hd⟩ := List.mem_filterMap.mp hx2
    exact candidateOfToken_pos d x hd

lemma heuristicGuesses_pos (dims : List DimToken) :
    ∀ g ∈ heuristicGuesses dims, 0 < g := by
  intro g hg
  unfold heuristicGuesses at hg
  obtain ⟨d, _, hd⟩ := List.mem_filterMap.mp hg
  simp only at hd
  split at hd
  · rcases h1 : d.p1 with _ | p1
    · rw [h1] at hd; simp at hd
    · rcases h2 : d.p2 with _ | p2
      · rw [h1, h2] at hd; simp at hd
      · rw [h1, h2] at hd
        by_cases h3 : 3 < pxDist p1 p2
        · simp [h3] at hd
          rw [← hd]
          exact div_pos (by norm_num) (by linarith)
        · simp [h3] at hd
  · exact absurd hd (by simp)

lemma manualFromExtents_pos (kw kh : Option ℚ) (pxW pxH v : ℚ)
    (hkw : ∀ x, kw = some x → 0 < x) (hkh : ∀ x, kh = some x → 0 < x)
    (h : manualFromExtents kw kh pxW pxH = some v) : 0 < v := by
  unfold manualFromExtents at h
  cases kw with
  | some w =>
    by_cases h1 : 0 < pxW
    · simp only [if_pos h1] at h
      have hvw : w / pxW = v := by simpa using h
      rw [← hvw]
      exact div_pos (hkw w rfl) h1
    · simp only [if_neg h1] at h
      cases kh with
      | some ht =>
        by_cases h2 : 0 < pxH
        · simp only [if_pos h2] at h
          have hvh : ht / pxH = v := by simpa using h
          rw [← hvh]
          exact div_pos (hkh ht rfl) h2
        · simp only [if_neg h2] at h
          exact absurd h (by simp)
      | none => exact absurd h (by simp)
  | none =>
    cases kh with
    | some ht =>
      by_cases h2 : 0 < pxH
      · simp only [if_pos h2] at h
        have hvh : ht / pxH = v := by simpa using h
        rw [← hvh]
        exact div_pos (hkh ht rfl) h2
      · simp only [if_neg h2] at h
        exact absurd h (by simp)
    | none => exact absurd h (by simp)

lemma manualStep_pos (kw kh : Option ℚ) (walls : List WallPx)
    (rooms : List RoomPx) (img : Option (ℚ × ℚ)) (ft : Option ℝ) (src : String)
    (hft : ∀ x : ℝ, ft = some x → 0 < x)
    (hkw : ∀ x, kw = some x → 0 < x) (hkh : ∀ x, kh = some x → 0 < x) :
    ∀ x : ℝ, (manualStep kw kh walls rooms img ft src).1 = some x → 0 < x := by
  intro x hx
  unfold manualStep at hx
  repeat' split at hx
  all_goals
    first
      | exact hft x (by simpa using hx)
      | (rename_i v heq
         simp at hx
         rw [← hx]
         exact_mod_cast manualFromExtents_pos _ _ _ _ v hkw hkh heq)

lemma heuristicStep_pos (dims : List DimToken) (ft : Option ℝ) (src : String)
    (hft : ∀ x : ℝ, ft = some x → 0 < x) :
    ∀ x : ℝ, (heuristicStep dims ft src).1 = some x → 0 < x := by
  intro x hx
  unfold heuristicStep at hx
  cases ft with
  | some v =>
    have hvx : v = x := by simpa using hx
    exact hvx ▸ hft v rfl
  | none =>
    cases hg : heuristicGuesses dims with
    | nil => rw [hg] at hx; exact absurd hx (by simp)
    | cons a t =>
      rw [hg] at hx
      have hmx : median (a :: t) = x := by simpa using hx
      rw [← hmx]
      exact median_pos (by simp)
        (fun y hy => heuristicGuesses_pos dims y (hg ▸ hy))

lemma resolveScale_pos (dims : List DimToken) (walls : List WallPx)
    (rooms : List RoomPx) (ms : ManualScale) (img : Option (ℚ × ℚ))
    (hkw : ∀ x, orFalsy ms.knownWidthFt = some x → 0 < x)
    (hkh : ∀ x, orFalsy ms.knownHeightFt = some x → 0 < x) :
    0 < (resolveScale dims walls rooms ms img).1 := by
  simp only [resolveScale]
  have hft : ∀ x : ℝ, estimateScaleFromDims dims = some x → 0 < x :=
    fun x hx => estimateScale_pos dims x hx
  have hm := manualStep_pos (orFalsy ms.knownWidthFt) (orFalsy ms.knownHeightFt)
    walls rooms img (estimateScaleFromDims dims)
    (if (estimateScaleFromDims dims).isSome then "ocr" else "default")
    hft hkw hkh
  have hh := heuristicStep_pos dims
    (manualStep (orFalsy ms.knownWidthFt) (orFalsy ms.knownHeightFt)
      walls rooms img (estimateScaleFromDims dims)
      (if (estimateScaleFromDims dims).isSome then "ocr" else "default")).1
    (manualStep (orFalsy ms.knownWidthFt) (orFalsy ms.knownHeightFt)
      walls rooms img (estimateScaleFromDims dims)
      (if (estimateScaleFromDims dims).isSome then "ocr" else "default")).2.1
    hm
  split
  · norm_num
  · rename_i v hv
    simpa using hh v hv

/-! ### Claim C6: scale positivity -/

/-- The room list used for the negative-override counterexample: a
single 400 by 300 px rectangle. -/
def roomsRect : List RoomPx :=
  [⟨none, [(0, 0), (400, 0), (400, 300), (0, 300)]⟩]

/-- Counterexample to C6 as stated: a manual override with known width
minus 20 ft is accepted unvalidated and produces a strictly negative
resolved scale. -/
theorem C6_counterexample :
    (buildMetrics [] [] roomsRect ⟨some (-20), none⟩ none).scaleFtPerPx < 0 ∧
    (buildMetrics [] [] roomsRect ⟨some (-20), none⟩ none).scaleSource =
      "manual" := by
  have hbb : bboxUnionPx [] roomsRect =
      some [((0 : ℚ), (0 : ℚ)), (400, 0), (400, 300), (0, 300)] := by decide
  have hkw : orFalsy (some (-20 : ℚ)) = some (-20) := by decide
  have hm : manualStep (orFalsy (ManualScale.mk (some (-20)) none).knownWidthFt)
      (orFalsy (ManualScale.mk (some (-20)) none).knownHeightFt)
      [] roomsRect none (estimateScaleFromDims [])
      (if (estimateScaleFromDims []).isSome then "ocr" else "default")
      = (some (((-20 : ℚ) / (400 - 0) : ℚ) : ℝ), "manual", true) := by
    unfold manualStep
    rw [show orFalsy (ManualScale.mk (some (-20 : ℚ)) none).knownWidthFt =
      some (-20) from hkw, hbb]
    norm_num [manualFromExtents]
  have hrs := resolveScale_of_manualStep [] [] roomsRect ⟨some (-20), none⟩
    none _ hm
  rw [buildMetrics_scale, buildMetrics_source, hrs]
  constructor
  · show (((-20 : ℚ) / (400 - 0) : ℚ) : ℝ) < 0
    norm_num
  · rfl

/-- C6 amended: when every supplied manual-override length is
non-negative, the resolved scale is strictly positive on every input;
the OCR, heuristic and default tiers always produce positive values and
the manual tier divides a positive known length by a positive extent.
(The code does not validate the manual record, so a negative supplied
length can make the scale negative.) -/
theorem C6_amended_scale_positive (dims : List DimToken) (walls : List WallPx)
    (rooms : List RoomPx) (ms : ManualScale) (img : Option (ℚ × ℚ))
    (hw : ∀ x, ms.knownWidthFt = some x → 0 ≤ x)
    (hh : ∀ x, ms.knownHeightFt = some x → 0 ≤ x) :
    0 < (buildMetrics dims walls rooms ms img).scaleFtPerPx := by
  rw [buildMetrics_scale]
  apply resolveScale_pos
  · intro x hx
    unfold orFalsy at hx
    cases hms : ms.knownWidthFt with
    | none => rw [hms] at hx; exact absurd hx (by simp)
    | some v =>
      rw [hms] at hx
      by_cases hv : v = 0
      · simp [hv] at hx
      · simp [hv] at hx
        subst hx
        exact lt_of_le_of_ne (hw v hms) (Ne.symm hv)
  · intro x hx
    unfold orFalsy at hx
    cases hms : ms.knownHeightFt with
    | none => rw [hms] at hx; exact absurd hx (by simp)
    | some v =>
      rw [hms] at hx
      by_cases hv : v = 0
      · simp [hv] at hx
      · simp [hv] at hx
        subst hx
        exact lt_of_le_of_ne (hh v hms) (Ne.symm hv)

/-- Witness for the amended C6: scenario B input has a non-negative
manual record and its resolved scale is strictly positive. -/
theorem C6_amended_scale_positive_witness :
    0 < (buildMetrics [] [] roomsScenarioB msScenarioB none).scaleFtPerPx :=
  C6_amended_scale_positive [] [] roomsScenarioB msScenarioB none
    (fun x hx => by
      have : (20 : ℚ) = x := by simpa [msScenarioB] using hx
      rw [← this]; norm_num)
    (fun x hx => by simp [msScenarioB] at hx)

/-! ### Claim C5: provenance tags -/

/-- The door-width token of the heuristic counterexample. -/
def str2d8 : String := String.mk ['2', sqCh, '-', '8', dqCh]

/-- A token whose text holds the door-width substring but does not parse,
with an 80 px annotation line. -/
def tok5 : DimToken := ⟨some (0, 0), some (80, 0), none, some str2d8⟩

/-- The token list that forces the heuristic tier. -/
def dims5 : List DimToken := [tok5]

lemma pxDist80 : pxDist ((0 : ℚ), (0 : ℚ)) ((80 : ℚ), (0 : ℚ)) = 80 :=
  pxDist_eval _ _ 80 (by norm_num) (by push_cast; norm_num)

lemma cand5 : candidateOfToken tok5 = none := by
  have hfv : feetVal tok5 = none := by decide
  unfold candidateOfToken
  rw [show tok5.p1 = some ((0 : ℚ), (0 : ℚ)) from rfl,
    show tok5.p2 = some ((80 : ℚ), (0 : ℚ)) from rfl, hfv]
  simp

lemma estimate5 : estimateScaleFromDims dims5 = none := by
  unfold estimateScaleFromDims
  rw [show dims5.filterMap candidateOfToken = [] from by simp [dims5, cand5]]

lemma guesses5 : heuristicGuesses dims5 = [(2.6667 : ℝ) / 80] := by
  have hcond : ∃ a ∈ doorSubstrings, strHas a
      (String.mk (str2d8.data.map
        (fun c => if c = '’' then sqCh else c))) = true := by decide
  have h3 : (3 : ℝ) < 80 := by norm_num
  simp [heuristicGuesses, dims5, tok5, hcond, pxDist80, h3,
    -Prod.mk_zero_zero]

lemma manualStep_passthrough (walls : List WallPx) (rooms : List RoomPx)
    (img : Option (ℚ × ℚ)) (ft : Option ℝ) (src : String) :
    manualStep none none walls rooms img ft src = (ft, src, false) := rfl

lemma resolveScale5 :
    resolveScale dims5 [] [] ⟨none, none⟩ none =
      ((2.6667 : ℝ) / 80, "ocr", false) := by
  simp only [resolveScale, estimate5]
  norm_num [orFalsy, manualStep_passthrough, heuristicStep, guesses5,
    median_singleton]

/-- Counterexample to C5 as stated: on an input resolved purely by the
heuristic door-width tier (the OCR tier yields nothing), the provenance
tag is "ocr", not "heuristic". -/
theorem C5_counterexample :
    estimateScaleFromDims dims5 = none ∧
    (buildMetrics dims5 [] [] ⟨none, none⟩ none).scaleFtPerPx =
      (2.6667 : ℝ) / 80 ∧
    (buildMetrics dims5 [] [] ⟨none, none⟩ none).scaleSource = "ocr" ∧
    "ocr" ≠ "heuristic" := by
  refine ⟨estimate5, ?_, ?_, by decide⟩
  · rw [buildMetrics_scale, resolveScale5]
  · rw [buildMetrics_source, resolveScale5]

lemma manualStep_src (kw kh : Option ℚ) (walls : List WallPx)
    (rooms : List RoomPx) (img : Option (ℚ × ℚ)) (ft : Option ℝ)
    (src : String) :
    (manualStep kw kh walls rooms img ft src).2.1 = src ∨
    (manualStep kw kh walls rooms img ft src).2.1 = "manual" := by
  unfold manualStep
  repeat' split
  all_goals simp

lemma heuristicStep_src (dims : List DimToken) (ft : Option ℝ) (src : String) :
    (heuristicStep dims ft src).2 = src ∨
    (heuristicStep dims ft src).2 = "ocr" := by
  unfold heuristicStep
  cases ft
  · cases heuristicGuesses dims <;> simp
  · simp

/-- C5 amended: the provenance tag is always one of "ocr", "manual" and
"default" (never "heuristic"); when the heuristic tier supplies the
value (the OCR tier yields nothing, the manual override does not apply,
and the door-width guesses are non-empty) the tag is "ocr". -/
theorem C5_amended_provenance :
    (∀ (dims : List DimToken) (walls : List WallPx) (rooms : List RoomPx)
       (ms : ManualScale) (img : Option (ℚ × ℚ)),
      (buildMetrics dims walls rooms ms img).scaleSource = "ocr" ∨
      (buildMetrics dims walls rooms ms img).scaleSource = "manual" ∨
      (buildMetrics dims walls rooms ms img).scaleSource = "default") ∧
    (∀ (dims : List DimToken) (walls : List WallPx) (rooms : List RoomPx)
       (ms : ManualScale) (img : Option (ℚ × ℚ)),
      estimateScaleFromDims dims = none →
      (manualStep (orFalsy ms.knownWidthFt) (orFalsy ms.knownHeightFt) walls
        rooms img (estimateScaleFromDims dims)
        (if (estimateScaleFromDims dims).isSome then "ocr" else "default")).1 =
        none →
      heuristicGuesses dims ≠ [] →
      (buildMetrics dims walls rooms ms img).scaleSource = "ocr") := by
  constructor
  · intro dims walls rooms ms img
    rw [buildMetrics_source]
    simp only [resolveScale]
    set ft1 := estimateScaleFromDims dims with hft1
    set src1 := (if ft1.isSome then "ocr" else "default") with hsrc1def
    set m := manualStep (orFalsy ms.knownWidthFt) (orFalsy ms.knownHeightFt)
      walls rooms img ft1 src1 with hmdef
    set hstep := heuristicStep dims m.1 m.2.1 with hhdef
    have hsrc1 : src1 = "ocr" ∨ src1 = "default" := by
      rw [hsrc1def]
      by_cases hft : ft1.isSome = true <;> simp [hft]
    have h1 : m.2.1 = src1 ∨ m.2.1 = "manual" := by
      rw [hmdef]
      exact manualStep_src _ _ _ _ _ _ _
    have h2 : hstep.2 = m.2.1 ∨ hstep.2 = "ocr" := by
      rw [hhdef]
      exact heuristicStep_src _ _ _
    cases hh1 : hstep.1 with
    | none => simp
    | some v =>
      dsimp only
      rcases h2 with h2 | h2
      · rw [h2]
        rcases h1 with h1 | h1
        · rw [h1]
          rcases hsrc1 with h3 | h3 <;> rw [h3] <;> tauto
        · rw [h1]; tauto
      · rw [h2]; tauto
  · intro dims walls rooms ms img hest hm1 hg
    rw [buildMetrics_source]
    simp only [resolveScale]
    rw [hm1]
    cases hgc : heuristicGuesses dims with
    | nil => exact absurd hgc hg
    | cons a t => simp [heuristicStep, hgc]

/-- Witness for the amended C5: the heuristic-tier input of the
counterexample satisfies the hypotheses and gets tag "ocr". -/
theorem C5_amended_provenance_witness :
    estimateScaleFromDims dims5 = none ∧
    heuristicGuesses dims5 ≠ [] ∧
    (buildMetrics dims5 [] [] ⟨none, none⟩ none).scaleSource = "ocr" := by
  have h1 := estimate5
  have h2 : (manualStep (orFalsy (ManualScale.mk none none).knownWidthFt)
      (orFalsy (ManualScale.mk none none).knownHeightFt) ([] : List WallPx)
      ([] : List RoomPx) none (estimateScaleFromDims dims5)
      (if (estimateScaleFromDims dims5).isSome then "ocr" else "default")).1 =
      none := by
    rw [estimate5]
    rfl
  have h3 : heuristicGuesses dims5 ≠ [] := by rw [guesses5]; simp
  exact ⟨h1, h3,
    C5_amended_provenance.2 dims5 [] [] ⟨none, none⟩ none h1 h2 h3⟩

/-! ### Claim C7: the shape normalizer -/

/-- C7: every room the normalizer keeps comes from a pixel polygon with
at least three vertices, its coordinates are the pixel coordinates
multiplied by the single scale factor (the same factor for x and y), its
shoelace area exceeds the epsilon 0.01, and the stored area and
perimeter are the rounded shoelace area and closed-loop perimeter;
polygons failing the vertex or area threshold produce no output room. -/
theorem C7_normalizer :
    ∀ (s : ℝ) (roomsPx : List RoomPx) (r : RoomFt),
      r ∈ normalizeRooms s roomsPx →
      ∃ src ∈ roomsPx,
        3 ≤ src.polyPx.length ∧
        r.polygonFt = src.polyPx.map (fun p => ((p.1 : ℝ) * s, (p.2 : ℝ) * s)) ∧
        0.01 < (shoelace r.polygonFt).1 ∧
        r.areaFt2 = round3 (shoelace r.polygonFt).1 ∧
        r.perimeterFt = round3 (shoelace r.polygonFt).2 ∧
        r.name = nameOr src.name := by
  intro s roomsPx r hr
  unfold normalizeRooms at hr
  obtain ⟨src, hmem, hf⟩ := List.mem_filterMap.mp hr
  refine ⟨src, hmem, ?_⟩
  by_cases hlen : src.polyPx.length < 3
  · simp [hlen] at hf
  · by_cases harea : (0.01 : ℝ) < (shoelace (scalePoly src.polyPx s)).1
    · simp only [hlen, if_false, harea, if_true] at hf
      obtain rfl := Option.some.inj hf
      exact ⟨not_lt.mp hlen, rfl, harea, rfl, rfl, rfl⟩
    · simp [hlen, harea] at hf

/-- A 10 by 10 pixel square room for the C7 witness. -/
def roomPxSquare : RoomPx := ⟨none, [(0, 0), (10, 0), (10, 10), (0, 10)]⟩

lemma scalePoly_square :
    scalePoly [((0 : ℚ), (0 : ℚ)), (10, 0), (10, 10), (0, 10)] 1 =
      synthBoxFt := by
  norm_num [scalePoly, synthBoxFt, -Prod.mk_zero_zero]

lemma normalizeRooms_square :
    normalizeRooms 1 [roomPxSquare] = [⟨"Room", synthBoxFt, 100, 40⟩] := by
  have h001 : (0.01 : ℝ) < 100 := by norm_num
  simp [normalizeRooms, roomPxSquare, scalePoly_square, shoelace_synthBox,
    nameOr, round3_hundred, round3_forty, h001, -Prod.mk_zero_zero]

/-- Witness for C7: the unit-scaled 10 by 10 pixel square survives and
satisfies every clause. -/
theorem C7_normalizer_witness :
    ∃ src ∈ [roomPxSquare],
      3 ≤ src.polyPx.length ∧
      (RoomFt.mk "Room" synthBoxFt 100 40).polygonFt =
        src.polyPx.map (fun p => ((p.1 : ℝ) * 1, (p.2 : ℝ) * 1)) ∧
      0.01 < (shoelace (RoomFt.mk "Room" synthBoxFt 100 40).polygonFt).1 ∧
      (RoomFt.mk "Room" synthBoxFt 100 40).areaFt2 =
        round3 (shoelace (RoomFt.mk "Room" synthBoxFt 100 40).polygonFt).1 ∧
      (RoomFt.mk "Room" synthBoxFt 100 40).perimeterFt =
        round3 (shoelace (RoomFt.mk "Room" synthBoxFt 100 40).polygonFt).2 ∧
      (RoomFt.mk "Room" synthBoxFt 100 40).name = nameOr src.name :=
  C7_normalizer 1 [roomPxSquare] ⟨"Room", synthBoxFt, 100, 40⟩
    (by rw [normalizeRooms_square]; simp)

/-! ### Claim C8: the manual-rectangle synthesis -/

/-- Counterexample to C8 as stated: a manual record with explicit width
20 ft and height 30 ft, no shapes and no image.  The normalizer yields
zero rooms, yet no 20 by 30 rectangle is synthesized: the override never
applies (it needs a bounding box or a readable image), and the output is
the 10 by 10 synthetic placeholder with provenance "default". -/
theorem C8_counterexample :
    (buildMetrics [] [] [] ⟨some 20, some 30⟩ none).rooms =
      [⟨"SyntheticArea", [((0 : ℝ), (0 : ℝ)), (10, 0), (10, 10), (0, 10)],
        100, 40⟩] ∧
    (buildMetrics [] [] [] ⟨some 20, some 30⟩ none).rooms.map
        (fun r => r.polygonFt) ≠
      [[((0 : ℝ), (0 : ℝ)), (20, 0), (20, 30), (0, 30)]] ∧
    (buildMetrics [] [] [] ⟨some 20, some 30⟩ none).scaleSource = "default" := by
  have hr : (buildMetrics [] [] [] ⟨some 20, some 30⟩ none).rooms =
      [synthRoom] := rfl
  refine ⟨by rw [hr, synthRoom_eval], ?_, rfl⟩
  rw [hr, synthRoom_eval]
  intro h
  have h2 := congrArg (fun l => ((l.headD []).getD 1 ((0 : ℝ), (0 : ℝ))).1) h
  norm_num at h2

/-- C8 amended: the kw-by-kh rectangle is synthesized only when, in
addition to the claim, no union bounding box exists and the source image
is readable and the manual override actually applied; under those
conditions the rectangle is built directly in feet from the two known
values, and a missing width or height is inferred from the image aspect
ratio. -/
theorem C8_amended_synthesis :
    (∀ (dims : List DimToken) (walls : List WallPx) (rooms : List RoomPx)
       (ms : ManualScale) (iw ih w h : ℚ),
      normalizeRooms (resolveScale dims walls rooms ms (some (iw, ih))).1
        rooms = [] →
      (resolveScale dims walls rooms ms (some (iw, ih))).2.2 = true →
      bboxUnionPx walls rooms = none →
      orFalsy ms.knownWidthFt = some w →
      orFalsy ms.knownHeightFt = some h →
      (buildMetrics dims walls rooms ms (some (iw, ih))).rooms =
        [⟨"GrossArea",
          [((0 : ℝ), (0 : ℝ)), ((w : ℝ), 0), ((w : ℝ), (h : ℝ)), (0, (h : ℝ))],
          round3 (shoelace [((0 : ℝ), (0 : ℝ)), ((w : ℝ), 0),
            ((w : ℝ), (h : ℝ)), (0, (h : ℝ))]).1,
          round3 (shoelace [((0 : ℝ), (0 : ℝ)), ((w : ℝ), 0),
            ((w : ℝ), (h : ℝ)), (0, (h : ℝ))]).2⟩]) ∧
    (∀ (dims : List DimToken) (walls : List WallPx) (rooms : List RoomPx)
       (ms : ManualScale) (iw ih w : ℚ),
      normalizeRooms (resolveScale dims walls rooms ms (some (iw, ih))).1
        rooms = [] →
      (resolveScale dims walls rooms ms (some (iw, ih))).2.2 = true →
      bboxUnionPx walls rooms = none →
      orFalsy ms.knownWidthFt = some w →
      orFalsy ms.knownHeightFt = none →
      0 < iw →
      (buildMetrics dims walls rooms ms (some (iw, ih))).rooms =
        [⟨"GrossArea",
          [((0 : ℝ), (0 : ℝ)), ((w : ℝ), 0),
            ((w : ℝ), ((w * (ih / iw) : ℚ) : ℝ)),
            (0, ((w * (ih / iw) : ℚ) : ℝ))],
          round3 (shoelace [((0 : ℝ), (0 : ℝ)), ((w : ℝ), 0),
            ((w : ℝ), ((w * (ih / iw) : ℚ) : ℝ)),
            (0, ((w * (ih / iw) : ℚ) : ℝ))]).1,
          round3 (shoelace [((0 : ℝ), (0 : ℝ)), ((w : ℝ), 0),
            ((w : ℝ), ((w * (ih / iw) : ℚ) : ℝ)),
            (0, ((w * (ih / iw) : ℚ) : ℝ))]).2⟩]) ∧
    (∀ (dims : List DimToken) (walls : List WallPx) (rooms : List RoomPx)
       (ms : ManualScale) (iw ih h : ℚ),
      normalizeRooms (resolveScale dims walls rooms ms (some (iw, ih))).1
        rooms = [] →
      (resolveScale dims walls rooms ms (some (iw, ih))).2.2 = true →
      bboxUnionPx walls rooms = none →
      orFalsy ms.knownWidthFt = none →
      orFalsy ms.knownHeightFt = some h →
      0 < ih →
      (buildMetrics dims walls rooms ms (some (iw, ih))).rooms =
        [⟨"GrossArea",
          [((0 : ℝ), (0 : ℝ)), (((h * (iw / ih) : ℚ) : ℝ), 0),
            (((h * (iw / ih) : ℚ) : ℝ), (h : ℝ)), (0, (h : ℝ))],
          round3 (shoelace [((0 : ℝ), (0 : ℝ)), (((h * (iw / ih) : ℚ) : ℝ), 0),
            (((h * (iw / ih) : ℚ) : ℝ), (h : ℝ)), (0, (h : ℝ))]).1,
          round3 (shoelace [((0 : ℝ), (0 : ℝ)), (((h * (iw / ih) : ℚ) : ℝ), 0),
            (((h * (iw / ih) : ℚ) : ℝ), (h : ℝ)), (0, (h : ℝ))]).2⟩]) := by
  refine ⟨?_, ?_, ?_⟩
  · intro dims walls rooms ms iw ih w h hnorm hmu hbb hkw hkh
    rw [buildMetrics_rooms, hnorm]
    simp only [List.isEmpty_nil, if_true]
    unfold fallbackRooms
    rw [hbb, hmu]
    simp only [Option.isNone_none, Bool.and_self, if_true]
    unfold manualGrossRooms
    rw [hkw, hkh]
    simp [inferKh, inferKw]
  · intro dims walls rooms ms iw ih w hnorm hmu hbb hkw hkh hiw
    rw [buildMetrics_rooms, hnorm]
    simp only [List.isEmpty_nil, if_true]
    unfold fallbackRooms
    rw [hbb, hmu]
    simp only [Option.isNone_none, Bool.and_self, if_true]
    unfold manualGrossRooms
    rw [hkw, hkh]
    simp [inferKh, inferKw, hiw]
  · intro dims walls rooms ms iw ih h hnorm hmu hbb hkw hkh hih
    rw [buildMetrics_rooms, hnorm]
    simp only [List.isEmpty_nil, if_true]
    unfold fallbackRooms
    rw [hbb, hmu]
    simp only [Option.isNone_none, Bool.and_self, if_true]
    unfold manualGrossRooms
    rw [hkw, hkh]
    simp [inferKh, inferKw, hih]

/-- Witness for the amended C8: width 20 ft and height 30 ft with no
shapes and a readable 800 by 600 image synthesize the 20 by 30 GrossArea
rectangle. -/
theorem C8_amended_synthesis_witness :
    (buildMetrics [] [] [] ⟨some 20, some 30⟩ (some (800, 600))).rooms =
      [⟨"GrossArea",
        [((0 : ℝ), (0 : ℝ)), (((20 : ℚ) : ℝ), 0),
          (((20 : ℚ) : ℝ), ((30 : ℚ) : ℝ)), (0, ((30 : ℚ) : ℝ))],
        round3 (shoelace [((0 : ℝ), (0 : ℝ)), (((20 : ℚ) : ℝ), 0),
          (((20 : ℚ) : ℝ), ((30 : ℚ) : ℝ)), (0, ((30 : ℚ) : ℝ))]).1,
        round3 (shoelace [((0 : ℝ), (0 : ℝ)), (((20 : ℚ) : ℝ), 0),
          (((20 : ℚ) : ℝ), ((30 : ℚ) : ℝ)), (0, ((30 : ℚ) : ℝ))]).2⟩] := by
  have hm8 : manualStep
      (orFalsy (ManualScale.mk (some 20) (some 30)).knownWidthFt)
      (orFalsy (ManualScale.mk (some 20) (some 30)).knownHeightFt)
      [] [] (some (800, 600)) (estimateScaleFromDims [])
      (if (estimateScaleFromDims []).isSome then "ocr" else "default")
      = (some (((20 : ℚ) / 800 : ℚ) : ℝ), "manual", true) := by
    unfold manualStep
    rw [show bboxUnionPx [] [] = (none : Option (List (ℚ × ℚ))) from rfl]
    norm_num [orFalsy, manualFromExtents]
  have hrs8 := resolveScale_of_manualStep [] [] [] ⟨some 20, some 30⟩
    (some (800, 600)) _ hm8
  exact C8_amended_synthesis.1 [] [] [] ⟨some 20, some 30⟩ 800 600 20 30
    rfl (by rw [hrs8]) rfl (by decide) (by decide)
